import Mathlib

/-!
Verification of the IPA-to-Russian transliteration core (`src/ru.rs`).

The program has two stages: a Phoneme Reducer (`PhonemeSeq::new` together
with `vowels_lookup` and `consonants_lookup`) that maps decoded sound
descriptors to an internal phoneme sequence, and an Orthography Renderer
(`impl fmt::Display for PhonemeSeq`) that turns the phoneme sequence into
Cyrillic text with a one-element lookback/lookahead window.

This file is a shallow embedding of that code: each Rust enum becomes a
Lean inductive, `PhonemeSeq::new` becomes a pure function on lists, and
the body of the `Display` loop becomes `renderAt`, the string emitted for
one position.
-/

/-- Rust enum `Vowels` in `src/ru.rs`: the internal 5-value vowel set. -/
inductive Vowels
  | A | E | I | O | U
  deriving DecidableEq, Fintype

/-- Rust enum `Consonants` in `src/ru.rs`: the internal 18-value consonant set. -/
inductive Consonants
  | P | B | F | V | K | G
  | T | D | W | X | S | Z
  | L | M | N | R | H | C
  deriving DecidableEq, Fintype

/-- Rust enum `PalatalizedOnlyConsonants` in `src/ru.rs`. -/
inductive PalatalizedOnlyConsonants
  | J | Q
  deriving DecidableEq, Fintype

/-- Rust enum `Phoneme` in `src/ru.rs`: the tagged union the Renderer consumes.
`Probel` is the word separator. -/
inductive Phoneme
  | Vowel (phoneme : Vowels)
  | Consonant (phoneme : Consonants) (is_palatalized : Bool)
  | PalatalizedOnlyConsonant (phoneme : PalatalizedOnlyConsonants)
  | Probel
  deriving DecidableEq, Fintype

/-- Enum `ipa_sounds::Vowels`: the 20 supported IPA vowel qualities, exactly
the arms of the exhaustive match in `vowels_lookup`. -/
inductive IpaSounds.Vowels
  | CloseBackRounded
  | CloseBackUnrounded
  | CloseCentralRounded
  | CloseCentralUnrounded
  | CloseFrontRounded
  | CloseFrontUnrounded
  | CloseMidBackRounded
  | CloseMidBackUnrounded
  | CloseMidCentralRounded
  | CloseMidCentralUnrounded
  | CloseMidFrontRounded
  | CloseMidFrontUnrounded
  | MidCentral
  | NearCloseNearBackRounded
  | NearCloseNearFrontRounded
  | NearCloseNearFrontUnrounded
  | NearOpenFrontUrounded
  | OpenBackUnrounded
  | OpenFrontUnrounded
  | OpenMidBackUnrounded
  deriving DecidableEq, Fintype

/-- Enum `ipa_sounds::Consonants`: the 4 supported IPA consonant qualities,
exactly the arms of the exhaustive match in `consonants_lookup`. -/
inductive IpaSounds.Consonants
  | VoicedAlveolarNasal
  | VoicedBilabialNasal
  | VoicedPalatalApproximant
  | VoicelessBilabialPlosive
  deriving DecidableEq, Fintype

/-- Enum `ipa_sounds::Sound`: one decoded sound descriptor. -/
inductive IpaSounds.Sound
  | Vowel (phoneme : IpaSounds.Vowels) (is_long : Bool)
  | Consonant (phoneme : IpaSounds.Consonants) (is_long : Bool) (is_palatalized : Bool)
  | Space
  deriving DecidableEq

/-- Rust `fn vowels_lookup` in `src/ru.rs`, lines 11-37 (verbatim table). -/
def vowels_lookup : IpaSounds.Vowels → Vowels
  | .CloseBackRounded            => .U
  | .CloseBackUnrounded          => .U
  | .CloseCentralRounded         => .U
  | .CloseCentralUnrounded       => .I
  | .CloseFrontRounded           => .U
  | .CloseFrontUnrounded         => .I
  | .CloseMidBackRounded         => .O
  | .CloseMidBackUnrounded       => .U
  | .CloseMidCentralRounded      => .U
  | .CloseMidCentralUnrounded    => .E
  | .CloseMidFrontRounded        => .O
  | .CloseMidFrontUnrounded      => .E
  | .MidCentral                  => .A
  | .NearCloseNearBackRounded    => .U
  | .NearCloseNearFrontRounded   => .U
  | .NearCloseNearFrontUnrounded => .E
  | .NearOpenFrontUrounded       => .A
  | .OpenBackUnrounded           => .A
  | .OpenFrontUnrounded          => .A
  | .OpenMidBackUnrounded        => .A

/-- Rust `fn consonants_lookup` in `src/ru.rs`, lines 63-75. The palatalization
flag is forwarded for N, M, P and discarded for the palatal approximant J. -/
def consonants_lookup (consonant : IpaSounds.Consonants) (is_palatalized : Bool) : Phoneme :=
  match consonant with
  | .VoicedAlveolarNasal      => .Consonant .N is_palatalized
  | .VoicedBilabialNasal      => .Consonant .M is_palatalized
  | .VoicedPalatalApproximant => .PalatalizedOnlyConsonant .J
  | .VoicelessBilabialPlosive => .Consonant .P is_palatalized

/-- The body of the `flat_map` closure in `PhonemeSeq::new` (`src/ru.rs`
lines 84-96): one descriptor's expansion.
`iter::repeat(phoneme).take(is_long as usize + 1)` is
`List.replicate (is_long.toNat + 1) phoneme`. -/
def soundExpansion (sound : IpaSounds.Sound) : List Phoneme :=
  let pair : Phoneme × Bool :=
    match sound with
    | .Vowel phoneme is_long => (Phoneme.Vowel (vowels_lookup phoneme), is_long)
    | .Consonant phoneme is_long is_palatalized =>
        (consonants_lookup phoneme is_palatalized, is_long)
    | .Space => (Phoneme.Probel, false)
  List.replicate (pair.2.toNat + 1) pair.1

/-- Rust `PhonemeSeq::new` in `src/ru.rs`, lines 81-100: flat-map each descriptor
through its expansion, in order. A `PhonemeSeq` is its underlying list. -/
def PhonemeSeq.new (ipa : List IpaSounds.Sound) : List Phoneme :=
  ipa.flatMap soundExpansion

/-- Field `is_long` of a descriptor; `Space` carries no length and the source pairs
it with `false` (`src/ru.rs` line 94). -/
def soundIsLong : IpaSounds.Sound → Bool
  | .Vowel _ is_long => is_long
  | .Consonant _ is_long _ => is_long
  | .Space => false

/-- Rust `let is_prev_palatalized` in the render loop (`src/ru.rs` lines 107-115):
true iff the phoneme at `i - 1` is a palatalized `Consonant` or any
`PalatalizedOnlyConsonant`; false at position 0. -/
def is_prev_palatalized (s : List Phoneme) (i : Nat) : Bool :=
  match i with
  | 0 => false
  | j + 1 =>
    match s.getD j Phoneme.Probel with
    | .Vowel _ => false
    | .Consonant _ is_palatalized => is_palatalized
    | .PalatalizedOnlyConsonant _ => true
    | .Probel => false

/-- Rust `let is_vowel_next` in the render loop (`src/ru.rs` lines 116-125):
false at the last position, otherwise true iff the phoneme at `i + 1` is a
`Vowel`. -/
def is_vowel_next (s : List Phoneme) (i : Nat) : Bool :=
  if i == s.length - 1 then
    false
  else
    match s.getD (i + 1) Phoneme.Probel with
    | .Vowel _ => true
    | .Consonant _ _ => false
    | .PalatalizedOnlyConsonant _ => false
    | .Probel => false

/-- Rust `let is_consonant_prev` in the render loop (`src/ru.rs` lines 126-134):
true iff the phoneme at `i - 1` is a `Consonant` or a
`PalatalizedOnlyConsonant`; false at position 0. -/
def is_consonant_prev (s : List Phoneme) (i : Nat) : Bool :=
  match i with
  | 0 => false
  | j + 1 =>
    match s.getD j Phoneme.Probel with
    | .Vowel _ => false
    | .Consonant _ _ => true
    | .PalatalizedOnlyConsonant _ => true
    | .Probel => false

/-- Rust `let is_q_or_wj_prev` in the render loop (`src/ru.rs` lines 135-146):
true iff the phoneme at `i - 1` is `Consonant(W, palatalized=true)` or
`PalatalizedOnlyConsonant(Q)`; false at position 0. -/
def is_q_or_wj_prev (s : List Phoneme) (i : Nat) : Bool :=
  match i with
  | 0 => false
  | j + 1 =>
    match s.getD j Phoneme.Probel with
    | .Vowel _ => false
    | .Consonant phoneme is_palatalized =>
        match phoneme with
        | .W => is_palatalized
        | _ => false
    | .PalatalizedOnlyConsonant phoneme => phoneme == .Q
    | .Probel => false

/-- The string written for position `i` by the `Display` loop body
(`src/ru.rs` lines 147-192). -/
def renderAt (s : List Phoneme) (i : Nat) : String :=
  match s.getD i Phoneme.Probel with
  | .Vowel phoneme =>
      let is_vowel_palatalizing := is_prev_palatalized s i && !(is_q_or_wj_prev s i)
      match phoneme with
      | .A => if is_vowel_palatalizing then "я" else "а"
      | .E => if is_vowel_palatalizing then "е" else "э"
      | .I => if is_vowel_palatalizing then "и" else "ы"
      | .O => if is_vowel_palatalizing then "ё" else "о"
      | .U => if is_vowel_palatalizing then "ю" else "у"
  | .Consonant phoneme is_palatalized =>
      let is_jer := is_palatalized && !(is_vowel_next s i)
      match phoneme with
      | .P => if is_jer then "пь" else "п"
      | .B => if is_jer then "бь" else "б"
      | .F => if is_jer then "фь" else "ф"
      | .V => if is_jer then "вь" else "в"
      | .K => if is_jer then "кь" else "к"
      | .G => if is_jer then "гь" else "г"
      | .T => if is_jer then "ть" else "т"
      | .D => if is_jer then "дь" else "д"
      | .W => if is_palatalized then "щ" else "ш"
      | .X => if is_jer then "жь" else "ж"
      | .S => if is_jer then "сь" else "с"
      | .Z => if is_jer then "зь" else "з"
      | .L => if is_jer then "ль" else "л"
      | .M => if is_jer then "мь" else "м"
      | .N => if is_jer then "нь" else "н"
      | .R => if is_jer then "рь" else "р"
      | .H => if is_jer then "хь" else "х"
      | .C => if is_jer then "сь" else "с"
  | .PalatalizedOnlyConsonant phoneme =>
      match phoneme with
      | .J =>
          if is_vowel_next s i && is_consonant_prev s i then "ъ"
          else if !(is_vowel_next s i) then "й"
          else ""
      | .Q => "ч"
  | .Probel => " "

/-- Method `fmt` of `impl fmt::Display for PhonemeSeq` (`src/ru.rs` lines 105-194):
concatenate the rendering of every position `0 .. len`. -/
def PhonemeSeq.fmt (s : List Phoneme) : String :=
  (List.range s.length).foldl (fun acc i => acc ++ renderAt s i) ""

/-- Spec-side (claim C1): the plain vowel glyph table а э ы о у. -/
def specPlainGlyph : Vowels → String
  | .A => "а"
  | .E => "э"
  | .I => "ы"
  | .O => "о"
  | .U => "у"

/-- Spec-side (claim C1): the iotated vowel glyph table я е и ё ю. -/
def specIotatedGlyph : Vowels → String
  | .A => "я"
  | .E => "е"
  | .I => "и"
  | .O => "ё"
  | .U => "ю"

/-- Spec-side (claim C1): iotation condition stated as the claim states it —
the phoneme at `i - 1` is a palatalized Consonant or a Palatalized-Only
Consonant, and is neither `Consonant(W, palatalized=true)` nor
`PalatalizedOnlyConsonant(Q)`; false at position 0. -/
def specVowelIotationCond (s : List Phoneme) (i : Nat) : Bool :=
  match i with
  | 0 => false
  | j + 1 =>
    match s.getD j Phoneme.Probel with
    | .Consonant c pal => pal && !(c == Consonants.W && pal)
    | .PalatalizedOnlyConsonant q => !(q == PalatalizedOnlyConsonants.Q)
    | _ => false

/-- Spec-side (claims C2, C3): the phoneme at `i + 1` is a Vowel; false when
there is no phoneme at `i + 1`. -/
def specNextIsVowel (s : List Phoneme) (i : Nat) : Bool :=
  match s.getD (i + 1) Phoneme.Probel with
  | .Vowel _ => true
  | _ => false

/-- Spec-side (claim C3): the phoneme at `i - 1` is a Consonant or a
Palatalized-Only Consonant; false at position 0. -/
def specPrevIsConsonant (s : List Phoneme) (i : Nat) : Bool :=
  match i with
  | 0 => false
  | j + 1 =>
    match s.getD j Phoneme.Probel with
    | .Consonant _ _ => true
    | .PalatalizedOnlyConsonant _ => true
    | _ => false

/-- Spec-side (claim C2): the hard consonant spelling table from the spec
(п б ф в к г т д ш ж с з л м н р х, and С sharing с with S); the soft
spelling of the claim is this glyph followed by the soft sign. -/
def specHardGlyph : Consonants → String
  | .P => "п"
  | .B => "б"
  | .F => "ф"
  | .V => "в"
  | .K => "к"
  | .G => "г"
  | .T => "т"
  | .D => "д"
  | .W => "ш"
  | .X => "ж"
  | .S => "с"
  | .Z => "з"
  | .L => "л"
  | .M => "м"
  | .N => "н"
  | .R => "р"
  | .H => "х"
  | .C => "с"

/-- Modelled from the spec: the sound-descriptor format and its parser live
in the `ipa_sounds` crate, which is not under `src/`. Per the spec, "a
descriptor carrying an unsupported phonetic quality is a contract violation
...: the Reducer must fail fast and loudly (a distinguishable 'unsupported
phoneme' error/fault) rather than silently approximate or default". A vowel
quality is one of the 20 supported ones or an unsupported quality named by
its IPA symbol. -/
inductive IpaSounds.ExtVowelQuality
  | supported (q : IpaSounds.Vowels)
  | unsupported (name : String)
  deriving DecidableEq

/-- Modelled from the spec: a consonant quality is one of the 4 supported
ones or an unsupported quality named by its IPA symbol. -/
inductive IpaSounds.ExtConsonantQuality
  | supported (q : IpaSounds.Consonants)
  | unsupported (name : String)
  deriving DecidableEq

/-- Modelled from the spec: a sound descriptor over the extended quality
sets (vowel quality + length, consonant quality + length + palatalization,
or separator). -/
inductive IpaSounds.ExtSound
  | Vowel (phoneme : IpaSounds.ExtVowelQuality) (is_long : Bool)
  | Consonant (phoneme : IpaSounds.ExtConsonantQuality) (is_long : Bool) (is_palatalized : Bool)
  | Space
  deriving DecidableEq

/-- Modelled from the spec: reduce one extended descriptor. Supported
qualities go through the code's tables and length expansion; an unsupported
quality is a distinguishable "unsupported phoneme" fault, never a fallback
phoneme. -/
def reduceExtSound : IpaSounds.ExtSound → Except String (List Phoneme)
  | .Vowel (.supported q) is_long =>
      .ok (List.replicate (is_long.toNat + 1) (Phoneme.Vowel (vowels_lookup q)))
  | .Vowel (.unsupported nm) _ => .error ("unsupported phoneme: " ++ nm)
  | .Consonant (.supported q) is_long is_palatalized =>
      .ok (List.replicate (is_long.toNat + 1) (consonants_lookup q is_palatalized))
  | .Consonant (.unsupported nm) _ _ => .error ("unsupported phoneme: " ++ nm)
  | .Space => .ok [Phoneme.Probel]

/-- Modelled from the spec: the Reducer over extended descriptors — the
in-order concatenation of the per-descriptor reductions, failing fast on the
first fault. -/
def extReduce : List IpaSounds.ExtSound → Except String (List Phoneme)
  | [] => .ok []
  | d :: rest =>
    match reduceExtSound d with
    | .error e => .error e
    | .ok ph =>
      match extReduce rest with
      | .error e => .error e
      | .ok tail => .ok (ph ++ tail)

/-- A descriptor carrying a phonetic quality outside the supported set. -/
def extIsUnsupported : IpaSounds.ExtSound → Bool
  | .Vowel (.unsupported _) _ => true
  | .Consonant (.unsupported _) _ _ => true
  | _ => false

/-- Vowel backness, read off the articulatory name of each supported IPA
quality (spec-side, claim C6). -/
inductive VowelBackness
  | Front | NearFront | Central | NearBack | Back
  deriving DecidableEq, Fintype

/-- Vowel height (closeness), read off the articulatory name of each
supported IPA quality (spec-side, claim C6). -/
inductive VowelHeight
  | Close | NearClose | CloseMid | Mid | OpenMid | NearOpen | Open
  deriving DecidableEq, Fintype

/-- Backness of each supported IPA vowel quality, from its name. -/
def qualityBackness : IpaSounds.Vowels → VowelBackness
  | .CloseBackRounded            => .Back
  | .CloseBackUnrounded          => .Back
  | .CloseCentralRounded         => .Central
  | .CloseCentralUnrounded       => .Central
  | .CloseFrontRounded           => .Front
  | .CloseFrontUnrounded         => .Front
  | .CloseMidBackRounded         => .Back
  | .CloseMidBackUnrounded       => .Back
  | .CloseMidCentralRounded      => .Central
  | .CloseMidCentralUnrounded    => .Central
  | .CloseMidFrontRounded        => .Front
  | .CloseMidFrontUnrounded      => .Front
  | .MidCentral                  => .Central
  | .NearCloseNearBackRounded    => .NearBack
  | .NearCloseNearFrontRounded   => .NearFront
  | .NearCloseNearFrontUnrounded => .NearFront
  | .NearOpenFrontUrounded       => .Front
  | .OpenBackUnrounded           => .Back
  | .OpenFrontUnrounded          => .Front
  | .OpenMidBackUnrounded        => .Back

/-- Height of each supported IPA vowel quality, from its name. -/
def qualityHeight : IpaSounds.Vowels → VowelHeight
  | .CloseBackRounded            => .Close
  | .CloseBackUnrounded          => .Close
  | .CloseCentralRounded         => .Close
  | .CloseCentralUnrounded       => .Close
  | .CloseFrontRounded           => .Close
  | .CloseFrontUnrounded         => .Close
  | .CloseMidBackRounded         => .CloseMid
  | .CloseMidBackUnrounded       => .CloseMid
  | .CloseMidCentralRounded      => .CloseMid
  | .CloseMidCentralUnrounded    => .CloseMid
  | .CloseMidFrontRounded        => .CloseMid
  | .CloseMidFrontUnrounded      => .CloseMid
  | .MidCentral                  => .Mid
  | .NearCloseNearBackRounded    => .NearClose
  | .NearCloseNearFrontRounded   => .NearClose
  | .NearCloseNearFrontUnrounded => .NearClose
  | .NearOpenFrontUrounded       => .NearOpen
  | .OpenBackUnrounded           => .Open
  | .OpenFrontUnrounded          => .Open
  | .OpenMidBackUnrounded        => .OpenMid

/-- Rounding of each supported IPA vowel quality, from its name
(`MidCentral`, the schwa, is unrounded). -/
def qualityRounded : IpaSounds.Vowels → Bool
  | .CloseBackRounded            => true
  | .CloseBackUnrounded          => false
  | .CloseCentralRounded         => true
  | .CloseCentralUnrounded       => false
  | .CloseFrontRounded           => true
  | .CloseFrontUnrounded         => false
  | .CloseMidBackRounded         => true
  | .CloseMidBackUnrounded       => false
  | .CloseMidCentralRounded      => true
  | .CloseMidCentralUnrounded    => false
  | .CloseMidFrontRounded        => true
  | .CloseMidFrontUnrounded      => false
  | .MidCentral                  => false
  | .NearCloseNearBackRounded    => true
  | .NearCloseNearFrontRounded   => true
  | .NearCloseNearFrontUnrounded => false
  | .NearOpenFrontUrounded       => false
  | .OpenBackUnrounded           => false
  | .OpenFrontUnrounded          => false
  | .OpenMidBackUnrounded        => false

/-- The vowel-table partition exactly as claim C6 states it: U gets exactly
the back-rounded and near-back-rounded qualities; A exactly the mid-central
unrounded (schwa-like), open/near-open front unrounded and open-mid back
unrounded ones; E exactly close-mid front unrounded, close-mid central
unrounded and near-close near-front unrounded; I exactly close front
unrounded and close central unrounded; O exactly close-mid back rounded and
close-mid front rounded. -/
def claimedVowelPartition : Prop :=
  (∀ q : IpaSounds.Vowels, vowels_lookup q = Vowels.U ↔
    (qualityRounded q = true ∧
      (qualityBackness q = VowelBackness.Back ∨ qualityBackness q = VowelBackness.NearBack)))
  ∧ (∀ q : IpaSounds.Vowels, vowels_lookup q = Vowels.A ↔
      ((qualityHeight q = VowelHeight.Mid ∧ qualityBackness q = VowelBackness.Central
          ∧ qualityRounded q = false)
        ∨ ((qualityHeight q = VowelHeight.Open ∨ qualityHeight q = VowelHeight.NearOpen)
          ∧ qualityBackness q = VowelBackness.Front ∧ qualityRounded q = false)
        ∨ (qualityHeight q = VowelHeight.OpenMid ∧ qualityBackness q = VowelBackness.Back
          ∧ qualityRounded q = false)))
  ∧ (∀ q : IpaSounds.Vowels, vowels_lookup q = Vowels.E ↔
      ((qualityHeight q = VowelHeight.CloseMid ∧ qualityBackness q = VowelBackness.Front
          ∧ qualityRounded q = false)
        ∨ (qualityHeight q = VowelHeight.CloseMid ∧ qualityBackness q = VowelBackness.Central
          ∧ qualityRounded q = false)
        ∨ (qualityHeight q = VowelHeight.NearClose ∧ qualityBackness q = VowelBackness.NearFront
          ∧ qualityRounded q = false)))
  ∧ (∀ q : IpaSounds.Vowels, vowels_lookup q = Vowels.I ↔
      ((qualityHeight q = VowelHeight.Close ∧ qualityBackness q = VowelBackness.Front
          ∧ qualityRounded q = false)
        ∨ (qualityHeight q = VowelHeight.Close ∧ qualityBackness q = VowelBackness.Central
          ∧ qualityRounded q = false)))
  ∧ (∀ q : IpaSounds.Vowels, vowels_lookup q = Vowels.O ↔
      ((qualityHeight q = VowelHeight.CloseMid ∧ qualityBackness q = VowelBackness.Back
          ∧ qualityRounded q = true)
        ∨ (qualityHeight q = VowelHeight.CloseMid ∧ qualityBackness q = VowelBackness.Front
          ∧ qualityRounded q = true)))

/-- The code's iotation condition `is_prev_palatalized && !is_q_or_wj_prev`
coincides with the claim's condition on the previous phoneme. -/
theorem iotation_cond_eq (s : List Phoneme) (i : Nat) :
    (is_prev_palatalized s i && !(is_q_or_wj_prev s i)) = specVowelIotationCond s i := by
  cases i with
  | zero => rfl
  | succ j =>
    rcases hp : s.getD j Phoneme.Probel with v | ⟨c, pal⟩ | q | _
    · simp only [is_prev_palatalized, is_q_or_wj_prev, specVowelIotationCond, hp]
      rfl
    · simp only [is_prev_palatalized, is_q_or_wj_prev, specVowelIotationCond, hp]
      cases c <;> cases pal <;> rfl
    · simp only [is_prev_palatalized, is_q_or_wj_prev, specVowelIotationCond, hp]
      cases q <;> rfl
    · simp only [is_prev_palatalized, is_q_or_wj_prev, specVowelIotationCond, hp]
      rfl

/-- The code's lookahead `is_vowel_next` (guarded by the `i == len - 1`
check) coincides with "the phoneme at `i + 1` is a Vowel". -/
theorem vowel_next_eq (s : List Phoneme) (i : Nat) :
    is_vowel_next s i = specNextIsVowel s i := by
  by_cases h : (i == s.length - 1) = true
  · have hd : s.getD (i + 1) Phoneme.Probel = Phoneme.Probel := by
      apply List.getD_eq_default
      have hi : i = s.length - 1 := eq_of_beq h
      omega
    simp only [is_vowel_next, specNextIsVowel, h, hd, eq_self_iff_true, if_true]
  · rcases hd : s.getD (i + 1) Phoneme.Probel with v | ⟨c, pal⟩ | q | _ <;>
      simp only [is_vowel_next, specNextIsVowel, hd, if_neg h]

/-- The code's `is_consonant_prev` coincides with the claim's "previous
phoneme is a Consonant or Palatalized-Only Consonant". -/
theorem prev_consonant_eq (s : List Phoneme) (i : Nat) :
    is_consonant_prev s i = specPrevIsConsonant s i := by
  cases i with
  | zero => rfl
  | succ j =>
    rcases hp : s.getD j Phoneme.Probel with v | ⟨c, pal⟩ | q | _ <;>
      simp only [is_consonant_prev, specPrevIsConsonant, hp]

/-- C1: a Vowel at position `i` renders as its iotated glyph exactly when the
phoneme at `i - 1` is a palatalized Consonant or Palatalized-Only Consonant
and is neither `Consonant(W, true)` nor `PalatalizedOnlyConsonant(Q)`;
otherwise (in particular at position 0) it renders as its plain glyph. -/
theorem vowel_iotation_rule (s : List Phoneme) (i : Nat) (v : Vowels)
    (hv : s.getD i Phoneme.Probel = Phoneme.Vowel v) :
    renderAt s i =
      if specVowelIotationCond s i then specIotatedGlyph v else specPlainGlyph v := by
  unfold renderAt
  rw [hv, ← iotation_cond_eq]
  cases v <;> simp only [specIotatedGlyph, specPlainGlyph]

/-- Witness for C1: in `[Consonant(N, true), Vowel(A)]` the vowel at
position 1 follows the iotation rule. -/
theorem vowel_iotation_rule_witness :
    renderAt [Phoneme.Consonant .N true, Phoneme.Vowel .A] 1 =
      if specVowelIotationCond [Phoneme.Consonant .N true, Phoneme.Vowel .A] 1
      then specIotatedGlyph .A else specPlainGlyph .A :=
  vowel_iotation_rule _ 1 .A rfl

/-- C2: a Consonant other than W at position `i` renders with the soft-sign
suffix exactly when it is palatalized and the phoneme at `i + 1` is not a
Vowel (including at the end); W renders щ when palatalized and ш otherwise,
with no soft-sign form. -/
theorem consonant_jer_rule (s : List Phoneme) (i : Nat) (c : Consonants) (pal : Bool)
    (hc : s.getD i Phoneme.Probel = Phoneme.Consonant c pal) :
    (c ≠ Consonants.W →
      renderAt s i =
        if pal && !(specNextIsVowel s i) then specHardGlyph c ++ "ь" else specHardGlyph c)
    ∧ (c = Consonants.W → renderAt s i = if pal then "щ" else "ш") := by
  constructor
  · intro hne
    unfold renderAt
    rw [hc, ← vowel_next_eq]
    cases c <;>
      first
        | exact absurd rfl hne
        | cases pal <;> cases is_vowel_next s i <;> rfl
  · intro hW
    subst hW
    unfold renderAt
    rw [hc]

/-- Witness for C2: `[Consonant(T, true)]` at position 0 (palatalized, no
following vowel) follows the jer rule, rendering "ть". -/
theorem consonant_jer_rule_witness :
    (Consonants.T ≠ Consonants.W →
      renderAt [Phoneme.Consonant .T true] 0 =
        if true && !(specNextIsVowel [Phoneme.Consonant .T true] 0)
        then specHardGlyph .T ++ "ь" else specHardGlyph .T)
    ∧ (Consonants.T = Consonants.W →
      renderAt [Phoneme.Consonant .T true] 0 = if true then "щ" else "ш") :=
  consonant_jer_rule _ 0 .T true rfl

/-- C3: Palatalized-Only Consonant J renders "ъ" when followed by a Vowel
and preceded by a Consonant or Palatalized-Only Consonant, "й" when not
followed by a Vowel (including at the end), and nothing when followed by a
Vowel with no such preceding consonant. -/
theorem jot_rendering_rule (s : List Phoneme) (i : Nat)
    (hj : s.getD i Phoneme.Probel =
      Phoneme.PalatalizedOnlyConsonant PalatalizedOnlyConsonants.J) :
    renderAt s i =
      if specNextIsVowel s i && specPrevIsConsonant s i then "ъ"
      else if !(specNextIsVowel s i) then "й"
      else "" := by
  unfold renderAt
  rw [hj, ← vowel_next_eq, ← prev_consonant_eq]

/-- Witness for C3: in `[Consonant(D, false), J, Vowel(E)]` the J at
position 1 follows the hard-sign rule, rendering "ъ". -/
theorem jot_rendering_rule_witness :
    renderAt
        [Phoneme.Consonant .D false, Phoneme.PalatalizedOnlyConsonant .J,
         Phoneme.Vowel .E] 1 =
      if specNextIsVowel
            [Phoneme.Consonant .D false, Phoneme.PalatalizedOnlyConsonant .J,
             Phoneme.Vowel .E] 1
          && specPrevIsConsonant
            [Phoneme.Consonant .D false, Phoneme.PalatalizedOnlyConsonant .J,
             Phoneme.Vowel .E] 1
      then "ъ"
      else if !(specNextIsVowel
            [Phoneme.Consonant .D false, Phoneme.PalatalizedOnlyConsonant .J,
             Phoneme.Vowel .E] 1)
      then "й"
      else "" :=
  jot_rendering_rule _ 1 rfl

/-- C4: the Reducer is the in-order concatenation of per-descriptor
expansions; every descriptor expands to two structurally identical adjacent
phonemes when its long flag is set and to one phoneme otherwise, and a
separator always expands to exactly one Separator phoneme. -/
theorem reducer_length_expansion (ipa : List IpaSounds.Sound) :
    PhonemeSeq.new ipa = (ipa.map soundExpansion).flatten
    ∧ (∀ sound : IpaSounds.Sound, ∃ p : Phoneme,
        soundExpansion sound = if soundIsLong sound then [p, p] else [p])
    ∧ soundExpansion IpaSounds.Sound.Space = [Phoneme.Probel] := by
  refine ⟨rfl, ?_, rfl⟩
  intro sound
  rcases sound with ⟨q, l⟩ | ⟨q, l, pal⟩ | _
  · exact ⟨Phoneme.Vowel (vowels_lookup q), by cases l <;> rfl⟩
  · exact ⟨consonants_lookup q pal, by cases l <;> rfl⟩
  · exact ⟨Phoneme.Probel, rfl⟩

/-- C7: the two end-to-end renderings: the "подъезд" sequence and the
"щуша" sequence. -/
theorem concrete_renderings :
    PhonemeSeq.fmt
        [Phoneme.Consonant .P false, Phoneme.Vowel .O, Phoneme.Consonant .D false,
         Phoneme.PalatalizedOnlyConsonant .J, Phoneme.Vowel .E,
         Phoneme.Consonant .Z false, Phoneme.Consonant .D false] = "подъезд"
    ∧ PhonemeSeq.fmt
        [Phoneme.Consonant .W true, Phoneme.Vowel .U,
         Phoneme.Consonant .W false, Phoneme.Vowel .A] = "щуша" :=
  ⟨rfl, rfl⟩

/-- C9: two structurally identical adjacent phonemes can render differently:
in `[Consonant(M, true), Consonant(M, true), Vowel(A)]` positions 0 and 1
hold equal phonemes yet render "мь" and "м", the whole sequence rendering
"мьмя". -/
theorem identical_adjacent_render_differently :
    ([Phoneme.Consonant .M true, Phoneme.Consonant .M true,
        Phoneme.Vowel .A].getD 0 Phoneme.Probel
      = [Phoneme.Consonant .M true, Phoneme.Consonant .M true,
          Phoneme.Vowel .A].getD 1 Phoneme.Probel)
    ∧ renderAt [Phoneme.Consonant .M true, Phoneme.Consonant .M true,
        Phoneme.Vowel .A] 0 = "мь"
    ∧ renderAt [Phoneme.Consonant .M true, Phoneme.Consonant .M true,
        Phoneme.Vowel .A] 1 = "м"
    ∧ PhonemeSeq.fmt [Phoneme.Consonant .M true, Phoneme.Consonant .M true,
        Phoneme.Vowel .A] = "мьмя"
    ∧ renderAt [Phoneme.Consonant .M true, Phoneme.Consonant .M true,
          Phoneme.Vowel .A] 0
      ≠ renderAt [Phoneme.Consonant .M true, Phoneme.Consonant .M true,
          Phoneme.Vowel .A] 1 := by
  refine ⟨rfl, rfl, rfl, rfl, ?_⟩
  decide

/-- C10: rendering the empty phoneme sequence yields the empty string; the
per-position loop iterates over `List.range 0 = []`, so no position (and in
particular no `len - 1` lookahead bound) is ever evaluated. -/
theorem empty_sequence_renders_empty :
    PhonemeSeq.fmt ([] : List Phoneme) = ""
    ∧ List.range (List.length ([] : List Phoneme)) = [] :=
  ⟨rfl, rfl⟩

/-- A per-descriptor reduction can only fail with an "unsupported phoneme"
message. -/
theorem reduceExtSound_error_shape (d : IpaSounds.ExtSound) (e : String)
    (h : reduceExtSound d = Except.error e) :
    ∃ nm, e = "unsupported phoneme: " ++ nm := by
  rcases d with ⟨vq, l⟩ | ⟨cq, l, pal⟩ | _
  · rcases vq with q | nm
    · simp [reduceExtSound] at h
    · refine ⟨nm, ?_⟩
      simp only [reduceExtSound, Except.error.injEq] at h
      exact h.symm
  · rcases cq with q | nm
    · simp [reduceExtSound] at h
    · refine ⟨nm, ?_⟩
      simp only [reduceExtSound, Except.error.injEq] at h
      exact h.symm
  · simp [reduceExtSound] at h

/-- C5: a descriptor list containing any descriptor with an unsupported
phonetic quality reduces to a distinguishable "unsupported phoneme" error,
never to an output phoneme sequence. -/
theorem unsupported_phoneme_fails (ds : List IpaSounds.ExtSound) (d : IpaSounds.ExtSound)
    (hmem : d ∈ ds) (hu : extIsUnsupported d = true) :
    ∃ nm, extReduce ds = Except.error ("unsupported phoneme: " ++ nm) := by
  induction ds with
  | nil => cases hmem
  | cons hd rest ih =>
    rcases List.mem_cons.mp hmem with heq | hmem2
    · subst heq
      rcases d with ⟨vq, l⟩ | ⟨cq, l, pal⟩ | _
      · rcases vq with q | nm
        · simp [extIsUnsupported] at hu
        · exact ⟨nm, rfl⟩
      · rcases cq with q | nm
        · simp [extIsUnsupported] at hu
        · exact ⟨nm, rfl⟩
      · simp [extIsUnsupported] at hu
    · rcases hr : reduceExtSound hd with e | ph
      · obtain ⟨nm2, he⟩ := reduceExtSound_error_shape hd e hr
        refine ⟨nm2, ?_⟩
        simp only [extReduce, hr, he]
      · obtain ⟨nm, hnm⟩ := ih hmem2
        refine ⟨nm, ?_⟩
        simp only [extReduce, hr, hnm]

/-- Witness for C5: a single descriptor carrying the unsupported vowel
quality "ɶ" makes the Reducer fail with the "unsupported phoneme" error. -/
theorem unsupported_phoneme_fails_witness :
    ∃ nm, extReduce [IpaSounds.ExtSound.Vowel (IpaSounds.ExtVowelQuality.unsupported "ɶ") false]
      = Except.error ("unsupported phoneme: " ++ nm) :=
  unsupported_phoneme_fails _ _ (List.Mem.head _) rfl

/-- Counterexample to C6 as stated: the claimed feature-based partition is
false — `CloseFrontRounded` (a front rounded quality, neither back-rounded
nor near-back-rounded) is mapped to U by the table. -/
theorem claimed_vowel_partition_false : ¬ claimedVowelPartition := by
  intro h
  have h1 := (h.1 IpaSounds.Vowels.CloseFrontRounded).mp rfl
  exact absurd h1 (by decide)

/-- C6 amended: the table maps to U exactly the eight qualities
CloseBackRounded, CloseBackUnrounded, CloseCentralRounded, CloseFrontRounded,
CloseMidBackUnrounded, CloseMidCentralRounded, NearCloseNearBackRounded and
NearCloseNearFrontRounded, and to A exactly MidCentral,
NearOpenFrontUrounded, OpenBackUnrounded, OpenFrontUnrounded and
OpenMidBackUnrounded; the E, I and O groupings are exactly as the claim
states them. -/
theorem vowel_partition_amended :
    (∀ q : IpaSounds.Vowels, vowels_lookup q = Vowels.U ↔
      (q = .CloseBackRounded ∨ q = .CloseBackUnrounded ∨ q = .CloseCentralRounded
        ∨ q = .CloseFrontRounded ∨ q = .CloseMidBackUnrounded ∨ q = .CloseMidCentralRounded
        ∨ q = .NearCloseNearBackRounded ∨ q = .NearCloseNearFrontRounded))
    ∧ (∀ q : IpaSounds.Vowels, vowels_lookup q = Vowels.A ↔
        (q = .MidCentral ∨ q = .NearOpenFrontUrounded ∨ q = .OpenBackUnrounded
          ∨ q = .OpenFrontUnrounded ∨ q = .OpenMidBackUnrounded))
    ∧ (∀ q : IpaSounds.Vowels, vowels_lookup q = Vowels.E ↔
        ((qualityHeight q = VowelHeight.CloseMid ∧ qualityBackness q = VowelBackness.Front
            ∧ qualityRounded q = false)
          ∨ (qualityHeight q = VowelHeight.CloseMid ∧ qualityBackness q = VowelBackness.Central
            ∧ qualityRounded q = false)
          ∨ (qualityHeight q = VowelHeight.NearClose ∧ qualityBackness q = VowelBackness.NearFront
            ∧ qualityRounded q = false)))
    ∧ (∀ q : IpaSounds.Vowels, vowels_lookup q = Vowels.I ↔
        ((qualityHeight q = VowelHeight.Close ∧ qualityBackness q = VowelBackness.Front
            ∧ qualityRounded q = false)
          ∨ (qualityHeight q = VowelHeight.Close ∧ qualityBackness q = VowelBackness.Central
            ∧ qualityRounded q = false)))
    ∧ (∀ q : IpaSounds.Vowels, vowels_lookup q = Vowels.O ↔
        ((qualityHeight q = VowelHeight.CloseMid ∧ qualityBackness q = VowelBackness.Back
            ∧ qualityRounded q = true)
          ∨ (qualityHeight q = VowelHeight.CloseMid ∧ qualityBackness q = VowelBackness.Front
            ∧ qualityRounded q = true))) := by
  refine ⟨?_, ?_, ?_, ?_, ?_⟩ <;> decide

/-- C8: rendering is context-local — if two phoneme sequences have the same
length and differ only at position `k`, every position `j` with
`|j - k| > 1` renders to the same string in both. -/
theorem render_context_local (s t : List Phoneme) (k j : Nat)
    (hlen : s.length = t.length)
    (hagree : ∀ m, m ≠ k → s.getD m Phoneme.Probel = t.getD m Phoneme.Probel)
    (hdist : j + 1 < k ∨ k + 1 < j) :
    renderAt s j = renderAt t j := by
  have hj : s.getD j Phoneme.Probel = t.getD j Phoneme.Probel :=
    hagree j (by omega)
  have hnext : s.getD (j + 1) Phoneme.Probel = t.getD (j + 1) Phoneme.Probel :=
    hagree (j + 1) (by omega)
  have h1 : is_prev_palatalized s j = is_prev_palatalized t j := by
    cases j with
    | zero => rfl
    | succ m => simp only [is_prev_palatalized, hagree m (by omega : m ≠ k)]
  have h2 : is_vowel_next s j = is_vowel_next t j := by
    simp only [is_vowel_next, hlen, hnext]
  have h3 : is_consonant_prev s j = is_consonant_prev t j := by
    cases j with
    | zero => rfl
    | succ m => simp only [is_consonant_prev, hagree m (by omega : m ≠ k)]
  have h4 : is_q_or_wj_prev s j = is_q_or_wj_prev t j := by
    cases j with
    | zero => rfl
    | succ m => simp only [is_q_or_wj_prev, hagree m (by omega : m ≠ k)]
  simp only [renderAt, hj, h1, h2, h3, h4]

/-- Witness for C8: two length-4 sequences differing only at position 3
render identically at position 0. -/
theorem render_context_local_witness :
    renderAt [Phoneme.Vowel .A, Phoneme.Vowel .A, Phoneme.Probel,
        Phoneme.Consonant .P false] 0
      = renderAt [Phoneme.Vowel .A, Phoneme.Vowel .A, Phoneme.Probel,
          Phoneme.Probel] 0 :=
  render_context_local _ _ 3 0 rfl
    (fun m hm => by
      match m with
      | 0 => rfl
      | 1 => rfl
      | 2 => rfl
      | 3 => exact absurd rfl hm
      | n + 4 => rfl)
    (Or.inl (by decide))
